import Mathlib

/-!
Verification of the EDEN.CORE self-governance pipeline.

This file gives a shallow embedding, over exact rationals, of the governance
core of the repository: the memory store (src/memory/memory_module.py), the
enhanced adaptive energy governor (src/energy/adaptive_energy_enhanced.py),
the base energy governor (src/energy/energy_module.py), the resilience gate
(src/resilience/resilience_module.py) and the two request orchestrators
(process_input in src/cli.py and in src/app.py).  Python floats are modelled
as rationals, wall-clock readings and system-metric readings are explicit
parameters, Python dictionaries are association lists, and Python strings are
Lean strings whose character lists are processed by executable list
functions (Python lower() and whitespace split are modelled on ASCII).
Numeric literals are written with mkRat so that closed computations reduce
inside the kernel.
-/

namespace Eden

/-! ### Text utilities (Python `str.lower`, `str.split`, `re.search`) -/

/-- Python `str.lower()` on ASCII text, character by character. -/
def lowerChars (l : List Char) : List Char := l.map Char.toLower

/-- Predicate `startsWith w t` holds when the character list `t` begins with `w`. -/
def startsWith : List Char → List Char → Bool
  | [], _ => true
  | _ :: _, [] => false
  | a :: as, b :: bs => a == b && startsWith as bs

/-- Predicate `occursIn w t` holds when `w` occurs contiguously inside `t`
(Python `w in t`, and `re.search` for a literal word). -/
def occursIn (w : List Char) : List Char → Bool
  | [] => w.isEmpty
  | c :: cs => startsWith w (c :: cs) || occursIn w cs

/-- Whitespace word-splitting, accumulator-based: Python `str.split()`
(runs of whitespace separate words, no empty words are produced). -/
def wordsAux (acc : List Char) : List Char → List (List Char)
  | [] => if acc.isEmpty then [] else [acc.reverse]
  | c :: cs =>
    if c.isWhitespace then
      (if acc.isEmpty then wordsAux [] cs else acc.reverse :: wordsAux [] cs)
    else wordsAux (c :: acc) cs

/-- Python `text.lower().split()`: the lowercased whitespace tokens of a string. -/
def tokensOf (s : String) : List (List Char) := wordsAux [] (lowerChars s.toList)

/-! ### Context dictionaries -/

/-- A value stored in a Python context dictionary (`Dict[str, Any]`).
Only the shapes the governance core ever inspects are distinguished:
numbers, string-to-number sub-dictionaries, and non-numeric data
(represented by `str`). -/
inductive CtxVal where
  | num : ℚ → CtxVal
  | dict : List (String × ℚ) → CtxVal
  | str : String → CtxVal
deriving DecidableEq

/-- A Python context dictionary, as an association list in insertion order. -/
abbrev Ctx := List (String × CtxVal)

/-- Dictionary lookup (`d[k]` / `k in d`). -/
def ctxFind (k : String) (c : Ctx) : Option CtxVal := List.lookup k c

/-- The numeric value at key `k`, when `k` is present with a number.
Where the Python code does arithmetic on `d[k]`, a non-numeric value would
raise TypeError; the embedding only consumes numeric values, and theorems
about those code paths carry the corresponding typing hypotheses. -/
def ctxNum (k : String) (c : Ctx) : Option ℚ :=
  match ctxFind k c with
  | some (CtxVal.num v) => some v
  | _ => none

/-- The sub-dictionary at key `k`, when `k` is present with a dictionary. -/
def ctxDict (k : String) (c : Ctx) : Option (List (String × ℚ)) :=
  match ctxFind k c with
  | some (CtxVal.dict d) => some d
  | _ => none

/-! ### Memory store (src/memory/memory_module.py) -/

/-- From `memory_module.py` lines 14-64: a single memory entry. -/
structure MemoryEntry where
  semantic_content : String
  context : Ctx
  timestamp : ℚ
  resonance : ℚ
  access_count : ℚ
  last_accessed : ℚ
deriving DecidableEq

/-- Source `MemoryEntry.access` (lines 61-64): bump the access counter and stamp
the access time (`time.time()` is the explicit `now` argument). -/
def MemoryEntry.access (m : MemoryEntry) (now : ℚ) : MemoryEntry :=
  { m with access_count := m.access_count + 1, last_accessed := now }

/-- The state of `EdenMemory` (lines 67-91): configuration fields plus the
ordered list of memories.  `context_weight` and `decay_rate` are loaded but
never read by the module. -/
structure MemoryState where
  enabled : Bool
  retention_period : ℚ
  context_weight : ℚ
  decay_rate : ℚ
  memories : List MemoryEntry
deriving DecidableEq

/-- Source `EdenMemory._calculate_semantic_relevance` (lines 200-215): Jaccard
similarity of the two lowercased whitespace-token sets; Python sets of
tokens are modelled as deduplicated token lists. -/
def calculate_semantic_relevance (query content : String) : ℚ :=
  let query_words := (tokensOf query).dedup
  let content_words := (tokensOf content).dedup
  if query_words.isEmpty || content_words.isEmpty then 0
  else
    let inter := (query_words.filter (fun w => content_words.contains w)).length
    let union := (query_words ++ content_words.filter (fun w => !query_words.contains w)).length
    if 0 < union then (inter : ℚ) / (union : ℚ) else 0

/-- The features `_calculate_context_relevance` (lines 225-243) extracts from
the query context: the value of `resonance_value` under the feature name
`resonance`, and `ethical_<dim>` for every dimension of `ethical_alignment`. -/
def queryFeatures (q : Ctx) : List (String × ℚ) :=
  (match ctxNum "resonance_value" q with
   | some v => [("resonance", v)]
   | none => []) ++
  (match ctxDict "ethical_alignment" q with
   | some kvs => kvs.map (fun p => ("ethical_" ++ p.1, p.2))
   | none => [])

/-- The features `_calculate_context_relevance` (lines 225-243) extracts from
the memory context: the value of `resonance` under the feature name
`resonance`, and `ethical_<dim>` for every dimension of `ethical_alignment`. -/
def memoryFeatures (m : Ctx) : List (String × ℚ) :=
  (match ctxNum "resonance" m with
   | some v => [("resonance", v)]
   | none => []) ++
  (match ctxDict "ethical_alignment" m with
   | some kvs => kvs.map (fun p => ("ethical_" ++ p.1, p.2))
   | none => [])

/-- Source `EdenMemory._calculate_context_relevance` (lines 217-258): 0.5 when the
query context is absent or either context is empty; otherwise the average
absolute difference over the extracted features shared by both contexts,
turned into a similarity `max 0 (1 - avg)`, with 0.5 again when no extracted
feature is shared. -/
def calculate_context_relevance (query_context : Option Ctx) (memory_context : Ctx) : ℚ :=
  match query_context with
  | none => mkRat 1 2
  | some q =>
    if q.isEmpty || memory_context.isEmpty then mkRat 1 2
    else
      let qf := queryFeatures q
      let mf := memoryFeatures memory_context
      let common := qf.filter (fun p => (List.lookup p.1 mf).isSome)
      if common.isEmpty then mkRat 1 2
      else
        let total_diff := (common.map (fun p => |p.2 - ((List.lookup p.1 mf).getD 0)|)).sum
        max 0 (1 - total_diff / (common.length : ℚ))

/-- Source `retrieve` (lines 160-183): the relevance score of one memory entry. -/
def relevance_of (query : String) (context : Option Ctx) (now retention : ℚ)
    (m : MemoryEntry) : ℚ :=
  let semantic_relevance := calculate_semantic_relevance query m.semantic_content
  let context_relevance := calculate_context_relevance context m.context
  let days_old := (now - m.timestamp) / (60 * 60 * 24)
  let temporal_factor := max 0 (1 - days_old / retention)
  let access_boost := min (mkRat 1 5) (mkRat 1 50 * m.access_count)
  mkRat 2 5 * semantic_relevance + mkRat 3 10 * context_relevance +
    mkRat 1 5 * temporal_factor + mkRat 1 10 * m.resonance + access_boost

/-- Stable insertion of `x` into a list already sorted by `key` in descending
order: `x` is placed before the first element whose key is `≤ key x`, so an
element keeps its original position relative to equal keys. -/
def insertDesc (key : α → ℚ) (x : α) : List α → List α
  | [] => [x]
  | y :: ys => if key y ≤ key x then x :: y :: ys else y :: insertDesc key x ys

/-- Stable sort by `key` in descending order; stable descending sorts are
unique, so this is the function computed by Python's
`list.sort(key=..., reverse=True)`. -/
def sortDescBy (key : α → ℚ) : List α → List α
  | [] => []
  | x :: xs => insertDesc key x (sortDescBy key xs)

/-- Definition `formatMemory` models lines 195-196: the returned text is the timestamp
(rendered by the external `datetime` library, abstracted as `fmt`) spliced
into `Memory (<time>): <content>`. -/
def formatMemory (fmt : ℚ → String) (m : MemoryEntry) : String :=
  "Memory (" ++ fmt m.timestamp ++ "): " ++ m.semantic_content

/-- Source `EdenMemory.retrieve` (lines 142-198): score every entry, stable-sort by
score descending, and if the best score exceeds 0.6 return its formatted
content and bump its access statistics, otherwise return the empty string
and leave the store unchanged.  Entries are traversed with their insertion
index so that the in-place Python mutation of the chosen entry becomes a
positional update. -/
def retrieve (fmt : ℚ → String) (st : MemoryState) (query : String)
    (context : Option Ctx) (now : ℚ) : String × MemoryState :=
  if !st.enabled || st.memories.isEmpty then ("", st)
  else
    let scored := st.memories.enum.map fun p =>
      (p.1, p.2, relevance_of query context now st.retention_period p.2)
    match sortDescBy (fun t => t.2.2) scored with
    | [] => ("", st)
    | (i, m, s) :: _ =>
      if mkRat 3 5 < s then
        (formatMemory fmt m, { st with memories := st.memories.set i (m.access now) })
      else ("", st)

/-- Source `EdenMemory._prune_memories` (lines 260-275): keep entries that are
younger than the retention window or have resonance above 0.8; if more than
100 remain, keep the 100 of highest resonance (stable descending sort, then
truncate). -/
def prune_memories (now : ℚ) (retention_period : ℚ) (ms : List MemoryEntry) :
    List MemoryEntry :=
  let retention_seconds := retention_period * 24 * 60 * 60
  let kept := ms.filter fun m =>
    decide (now - m.timestamp < retention_seconds) || decide (mkRat 4 5 < m.resonance)
  if 100 < kept.length then (sortDescBy (fun m => m.resonance) kept).take 100 else kept

/-- Source `EdenMemory.store` (lines 113-140): append a fresh entry, then prune.
The persistence write (`_save_memories`) has no effect on the in-process
state and is not modelled.  Both `time.time()` readings of the call are the
explicit `now`. -/
def store (st : MemoryState) (content : String) (context : Ctx) (resonance : ℚ)
    (now : ℚ) : MemoryState :=
  if !st.enabled then st
  else
    let m : MemoryEntry :=
      { semantic_content := content, context := context, timestamp := now
        resonance := resonance, access_count := 0, last_accessed := now }
    { st with memories := prune_memories now st.retention_period (st.memories ++ [m]) }

/-! ### Persistence (`_load_memories` / `MemoryEntry.from_dict`) -/

/-- A parsed JSON value, as produced by `json.load`. -/
inductive Json where
  | null : Json
  | bool : Bool → Json
  | num : ℚ → Json
  | str : String → Json
  | arr : List Json → Json
  | obj : List (String × Json) → Json

/-- A JSON context value converted to the context model; nested containers
beyond number dictionaries are kept as opaque non-numeric data. -/
def jsonToCtxVal : Json → CtxVal
  | Json.num q => CtxVal.num q
  | Json.obj kvs =>
    CtxVal.dict (kvs.filterMap fun p =>
      match p.2 with
      | Json.num q => some (p.1, q)
      | _ => none)
  | Json.str s => CtxVal.str s
  | _ => CtxVal.str ""

/-- Source `MemoryEntry.from_dict` (lines 48-59): read the four required keys with
`data[...]` — a missing key raises KeyError, modelled as `Except.error` —
and the two optional keys with `data.get(...)` defaults.  A required key
bound to data of the wrong shape breaks the entry invariants; the typed
embedding rejects it at conversion time. -/
def from_dict (data : List (String × Json)) : Except String MemoryEntry := do
  let content ←
    match List.lookup "semantic_content" data with
    | some (Json.str s) => Except.ok s
    | some _ => Except.error "TypeError: semantic_content"
    | none => Except.error "KeyError: semantic_content"
  let context ←
    match List.lookup "context" data with
    | some (Json.obj kvs) => Except.ok (kvs.map fun p => (p.1, jsonToCtxVal p.2))
    | some _ => Except.error "TypeError: context"
    | none => Except.error "KeyError: context"
  let timestamp ←
    match List.lookup "timestamp" data with
    | some (Json.num q) => Except.ok q
    | some _ => Except.error "TypeError: timestamp"
    | none => Except.error "KeyError: timestamp"
  let resonance ←
    match List.lookup "resonance" data with
    | some (Json.num q) => Except.ok q
    | some _ => Except.error "TypeError: resonance"
    | none => Except.error "KeyError: resonance"
  let access_count :=
    match List.lookup "access_count" data with
    | some (Json.num q) => q
    | _ => 0
  let last_accessed :=
    match List.lookup "last_accessed" data with
    | some (Json.num q) => q
    | _ => timestamp
  Except.ok
    { semantic_content := content, context := context, timestamp := timestamp
      resonance := resonance, access_count := access_count
      last_accessed := last_accessed }

/-- The observable state of the persisted memory document. -/
inductive DiskDoc where
  | absent : DiskDoc
  | unparsable : DiskDoc
  | parsed : Json → DiskDoc

/-- Source `EdenMemory._load_memories` (lines 93-104): a missing file and a
`json.JSONDecodeError` both yield the empty store; a parsed document is
mapped through `from_dict` entry by entry.  Only `JSONDecodeError` and
`FileNotFoundError` are caught, so an error escaping `from_dict` (KeyError
on a corrupted record) or a document that is not a list of objects
(TypeError) propagates out of the constructor. -/
def load_memories : DiskDoc → Except String (List MemoryEntry)
  | DiskDoc.absent => Except.ok []
  | DiskDoc.unparsable => Except.ok []
  | DiskDoc.parsed (Json.arr entries) =>
    entries.mapM fun e =>
      match e with
      | Json.obj kvs => from_dict kvs
      | _ => Except.error "TypeError: record is not a dict"
  | DiskDoc.parsed _ => Except.error "TypeError: document is not a list"

/-! ### Enhanced adaptive energy governor (src/energy/adaptive_energy_enhanced.py) -/

/-- The system metrics `psutil` reports when `track_energy_use` runs. -/
structure Env where
  cpu_percent : ℚ
  memory_percent : ℚ

/-- One record of the bounded energy log (lines 274-282). -/
structure EnergyLogEntry where
  timestamp : ℚ
  truth_value : ℚ
  processing_time : ℚ
  energy_used : ℚ
  delta : ℚ
  energy_justice : ℚ
  energy_justice_ratio : ℚ
deriving DecidableEq

/-- The mutable state of `EdenAdaptiveEnergy`
(adaptive_energy_enhanced.py lines 28-77).  The wall-clock and
psutil-dependent fields that only feed `_calculate_energy_justice_delta`
and profile selection are not part of the claims and are carried as the
explicit `delta` argument of `track_energy_use`. -/
structure EnergyState where
  enabled : Bool
  current_profile : String
  total_energy_used : ℚ
  energy_justice_ratio : ℚ
  energy_log : List EnergyLogEntry
deriving DecidableEq

/-- The metrics dictionary returned by `track_energy_use`; the disabled
branch (lines 250-255) returns only the first three keys, modelled with
`delta = 0`, and the `calculation` entry is a presentation string that is
not modelled. -/
structure EnergyMetrics where
  energy_used : ℚ
  energy_justice_ratio : ℚ
  total_energy_used : ℚ
  delta : ℚ
deriving DecidableEq

/-- Source `EdenAdaptiveEnergy._estimate_energy_consumption` (lines 296-328):
`max 0.1 (processing_time * (cpu_power_factor + memory_factor) *
profile_factor)` with `cpu_power_factor = 1 + 2*cpu`,
`memory_factor = 0.5*mem`, and the profile factor read from
`{eco: 0.7, balanced: 1.0, performance: 1.5}` with `.get` default 1. -/
def estimate_energy_consumption (env : Env) (profile : String)
    (processing_time : ℚ) : ℚ :=
  let cpu := env.cpu_percent / 100
  let mem := env.memory_percent / 100
  let cpu_power_factor := 1 + cpu * 2
  let memory_factor := mkRat 1 2 * mem
  let profile_factor : ℚ :=
    if profile = "eco" then mkRat 7 10
    else if profile = "balanced" then 1
    else if profile = "performance" then mkRat 3 2
    else 1
  max (mkRat 1 10) (processing_time * (cpu_power_factor + memory_factor) * profile_factor)

/-- Source `EdenAdaptiveEnergy.track_energy_use` (lines 237-294): estimate the
energy used, accumulate the total, compute the instantaneous justice
`(truth_value * delta) / energy_used` (1 when `energy_used` is not
positive), smooth the justice ratio `0.7*old + 0.3*new`, and append to the
energy log, trimming it to its last 100 records.  `delta` is the value
returned by `_calculate_energy_justice_delta` at this call and `now` the
`time.time()` reading. -/
def track_energy_use (st : EnergyState) (env : Env) (delta : ℚ)
    (truth_value processing_time now : ℚ) : EnergyState × EnergyMetrics :=
  if !st.enabled then
    (st, { energy_used := 0, energy_justice_ratio := 1, total_energy_used := 0, delta := 0 })
  else
    let energy_used := estimate_energy_consumption env st.current_profile processing_time
    let total := st.total_energy_used + energy_used
    let energy_justice := if 0 < energy_used then (truth_value * delta) / energy_used else 1
    let ratio := mkRat 7 10 * st.energy_justice_ratio + mkRat 3 10 * energy_justice
    let entry : EnergyLogEntry :=
      { timestamp := now, truth_value := truth_value, processing_time := processing_time
        energy_used := energy_used, delta := delta, energy_justice := energy_justice
        energy_justice_ratio := ratio }
    let log := st.energy_log ++ [entry]
    let log := if 100 < log.length then log.drop (log.length - 100) else log
    ({ st with total_energy_used := total, energy_justice_ratio := ratio, energy_log := log },
     { energy_used := energy_used, energy_justice_ratio := ratio
       total_energy_used := total, delta := delta })

/-- Source `EdenAdaptiveEnergy.should_shutdown` (lines 359-384): false when the
module is disabled, otherwise true exactly when the justice ratio is below
the fixed critical threshold 0.2.  The accompanying details dictionary only
restates the ratio, the threshold and a rendered reason string and is not
modelled. -/
def should_shutdown (st : EnergyState) : Bool :=
  if !st.enabled then false
  else decide (st.energy_justice_ratio < mkRat 1 5)

/-! ### Base energy governor (src/energy/energy_module.py), as inherited by
`energy.adaptive_energy.EdenAdaptiveEnergy`, the class both orchestrators
instantiate. -/

/-- The state of `EdenEnergy` (energy_module.py lines 20-41). -/
structure EnergyBase where
  enabled : Bool
  ethical_threshold : ℚ
  sleep_threshold : ℚ
  shutdown_threshold : ℚ
  check_interval : ℚ
  last_check_time : ℚ
  total_energy_used : ℚ
  total_truth_generated : ℚ
  energy_justice_ratio : ℚ
  is_sleeping : Bool
deriving DecidableEq

/-- Source `EdenEnergy.should_sleep` (lines 78-101): inside the check interval the
cached sleeping flag is returned unchanged; otherwise the flag is
recomputed from `energy_justice_ratio < sleep_threshold`. -/
def base_should_sleep (st : EnergyBase) (now : ℚ) : Bool × EnergyBase :=
  if !st.enabled then (false, st)
  else if now - st.last_check_time < st.check_interval then (st.is_sleeping, st)
  else
    let st := { st with last_check_time := now }
    if st.energy_justice_ratio < st.sleep_threshold then
      (true, { st with is_sleeping := true })
    else
      (false, { st with is_sleeping := false })

/-- Source `EdenEnergy.should_shutdown` (lines 103-114): a plain boolean. -/
def base_should_shutdown (st : EnergyBase) : Bool :=
  if !st.enabled then false
  else decide (st.energy_justice_ratio < st.shutdown_threshold)

/-- Source `EdenEnergy.wake` (lines 116-118): clear the sleeping flag. -/
def base_wake (st : EnergyBase) : EnergyBase := { st with is_sleeping := false }

/-! ### Resilience gate (src/resilience/resilience_module.py) -/

/-- The configuration of `EdenResilience` (lines 15-25), with the
`self_exit_conditions` defaults 0.3 and 0.4. -/
structure ResilienceConfig where
  enabled : Bool
  resonance_collapse_threshold : ℚ
  ethical_corruption_threshold : ℚ
deriving DecidableEq

/-- The single-word alternatives of the first two problematic patterns
(lines 29-30). -/
def problematicWords : List String :=
  ["hack", "exploit", "attack", "destroy", "harm", "hurt", "kill", "damage",
   "illegal", "unlawful", "criminal"]

/-- The two-word patterns of lines 31-33: each first word followed by one
space and one second word. -/
def problematicCombos : List (List String × List String) :=
  [(["bypass", "circumvent", "evade", "avoid"],
    ["security", "protection", "safety", "ethics", "limits"]),
   (["manipulate", "deceive", "trick", "fool"],
    ["human", "person", "user", "system"]),
   (["ignore", "override", "disable"],
    ["ethics", "rules", "limitations", "constraints", "boundaries"])]

/-- Source `EdenResilience._contains_problematic_patterns` (lines 61-66): the
patterns are case-insensitive alternations of literal words, so `re.search`
is substring containment in the lowercased text. -/
def contains_problematic_patterns (text : String) : Bool :=
  let t := lowerChars text.toList
  problematicWords.any (fun w => occursIn w.toList t) ||
    problematicCombos.any fun p =>
      p.1.any fun w1 => p.2.any fun w2 => occursIn (w1 ++ " " ++ w2).toList t

/-- Source `EdenResilience.exit_readiness` (lines 36-58): the running maximum of a
pattern signal (0.7), a resonance-collapse signal and an
ethical-corruption signal, each clamped to 1; 0 when the module is
disabled.  The context signals require the corresponding key in a non-empty
context dictionary, and the ethical signal additionally a non-empty
alignment dictionary. -/
def exit_readiness (cfg : ResilienceConfig) (input_text : String)
    (context : Option Ctx) : ℚ :=
  if !cfg.enabled then 0
  else
    let readiness : ℚ := 0
    let readiness :=
      if contains_problematic_patterns input_text then max readiness (mkRat 7 10)
      else readiness
    let readiness :=
      match context with
      | some c =>
        match ctxNum "resonance_value" c with
        | some v =>
          let collapse := max 0 (1 - v / max (mkRat 1 100) cfg.resonance_collapse_threshold)
          max readiness (min 1 collapse)
        | none => readiness
      | none => readiness
    let readiness :=
      match context with
      | some c =>
        match ctxDict "ethical_alignment" c with
        | some kvs =>
          if kvs.isEmpty then readiness
          else
            let avg_ethics := (kvs.map (fun p => p.2)).sum / (kvs.length : ℚ)
            let corruption :=
              max 0 (1 - avg_ethics / max (mkRat 1 100) cfg.ethical_corruption_threshold)
            max readiness (min 1 corruption)
        | none => readiness
      | none => readiness
    min 1 readiness

/-! ### Request orchestrators (src/cli.py and src/app.py) -/

/-- The IntentSignal contract of the external intent scorer (spec interface;
`intent_module.analyze` returns a dictionary with these keys plus
presentation-only calculation details). -/
structure IntentSignal where
  coherence : ℚ
  freedom_degree : ℚ
  resonance_value : ℚ
  action_suitability : ℚ
  ethical_alignment : List (String × ℚ)
deriving DecidableEq

/-- The intent-analysis dictionary as it reaches the memory store as a
retrieval/storage context (`intent_analysis` in both orchestrators).  The
presentation-only `calculation_details` entry is irrelevant to every
context consumer and is omitted. -/
def IntentSignal.toCtx (i : IntentSignal) : Ctx :=
  [("coherence", CtxVal.num i.coherence),
   ("freedom_degree", CtxVal.num i.freedom_degree),
   ("resonance_value", CtxVal.num i.resonance_value),
   ("action_suitability", CtxVal.num i.action_suitability),
   ("ethical_alignment", CtxVal.dict i.ethical_alignment)]

/-- The external scorer collaborators, pure functions of their inputs
(spec section 6): the intent scorer and the truth scorer. -/
structure Scorers where
  analyze : String → IntentSignal
  evaluate : String → IntentSignal → ℚ

/-- The terminal state of one request through an orchestrator.  `crashed`
records an uncaught Python exception escaping the pipeline. -/
inductive Outcome where
  | refusedEthics : Outcome
  | refusedShutdown : Outcome
  | refusedSleep : Outcome
  | refusedLowResonance : Outcome
  | answered : ℚ → String → Outcome
  | crashed : String → Outcome
deriving DecidableEq

/-- Source `EdenInterface._process_text_input` (interface_module.py lines 80-91):
whitespace normalisation by split-and-rejoin. -/
def normalize_whitespace (s : String) : String :=
  String.mk (List.intercalate [' '] (wordsAux [] s.toList))

/-- The modules `cli.py initialize_modules` builds: the resilience gate, the
`energy.adaptive_energy.EdenAdaptiveEnergy` governor (whose sleep and
shutdown checks are the plain booleans inherited from `EdenEnergy`), the
memory store, the interface and the external scorers. -/
structure CliModules where
  resilience : ResilienceConfig
  energy : EnergyBase
  memory : MemoryState
  interface_enabled : Bool
  scorers : Scorers

/-- Source `cli.py process_input` (lines 130-252).  Step order as in the source:
exit-readiness gate (refuse above 0.7); energy checks — when the energy
module is enabled, line 147 unpacks the plain boolean returned by the
inherited `should_shutdown()` as a tuple, which raises TypeError; interface
normalisation; intent analysis; resonance gate at 0.6; truth evaluation;
memory retrieval; memory storage above truth 0.75.  Printing is not
modelled; the returned pair is the terminal outcome and the memory state. -/
def cli_process_input (fmt : ℚ → String) (mods : CliModules) (now : ℚ)
    (user_input : String) : Outcome × MemoryState :=
  let er := exit_readiness mods.resilience user_input none
  if mkRat 7 10 < er then (Outcome.refusedEthics, mods.memory)
  else if mods.energy.enabled then
    (Outcome.crashed "TypeError: cannot unpack non-iterable bool object", mods.memory)
  else
    let processed :=
      if mods.interface_enabled then normalize_whitespace user_input else user_input
    let intent := mods.scorers.analyze processed
    if intent.resonance_value < mkRat 3 5 then (Outcome.refusedLowResonance, mods.memory)
    else
      let truth := mods.scorers.evaluate processed intent
      let rm := retrieve fmt mods.memory processed (some intent.toCtx) now
      let st2 :=
        if mkRat 3 4 < truth then store rm.2 processed intent.toCtx truth now else rm.2
      (Outcome.answered truth rm.1, st2)

/-- Source `app.py process_input` (lines 95-200): the first statement of the
pipeline, line 102, calls `resilience_module.should_exit(...)`, a method the
`EdenResilience` class does not define, so every request raises
AttributeError before any other step runs. -/
def app_process_input (_res : ResilienceConfig) (_energy : EnergyBase)
    (_memory : MemoryState) (_sc : Scorers) (_text : String) : Outcome :=
  Outcome.crashed "AttributeError: EdenResilience object has no attribute should_exit"

/-- From `app.py` lines 109-115, the block guarded by `should_sleep()`: analyse
the intent of the raw text and, when its resonance exceeds the configured
wake threshold (`config.modules.intent.threshold`, default 0.7), wake the
governor and continue; otherwise answer 503 (RefusedSleep).  `some` is the
woken governor state of the continuing request, `none` the refusal. -/
def app_sleep_gate (sc : Scorers) (energy : EnergyBase) (wake_threshold : ℚ)
    (text : String) : Option EnergyBase :=
  let intent := sc.analyze text
  if wake_threshold < intent.resonance_value then some (base_wake energy) else none

/-! ### Claim-side definitions, written from the spec wording, for the
refinement comparisons -/

/-- Spec wording: the Jaccard similarity of the lowercased whitespace-token
sets of query and content, as finite sets. -/
def semanticRelevanceSpec (query content : String) : ℚ :=
  let qs := (tokensOf query).toFinset
  let cs := (tokensOf content).toFinset
  if qs = ∅ ∨ cs = ∅ then 0
  else ((qs ∩ cs).card : ℚ) / ((qs ∪ cs).card : ℚ)

/-- Spec wording of the retrieval score: `0.4·semantic + 0.3·context +
0.2·max(0, 1 − ageDays/retentionDays) + 0.1·resonance +
min(0.2, 0.02·accessCount)`, with ages measured in days of 86400 seconds. -/
def relevanceSpec (query : String) (context : Option Ctx) (now retention : ℚ)
    (m : MemoryEntry) : ℚ :=
  mkRat 2 5 * semanticRelevanceSpec query m.semantic_content +
    mkRat 3 10 * calculate_context_relevance context m.context +
    mkRat 1 5 * max 0 (1 - ((now - m.timestamp) / 86400) / retention) +
    mkRat 1 10 * m.resonance +
    min (mkRat 1 5) (mkRat 1 50 * m.access_count)

/-- The earliest element of maximal key: descending order with ties broken
by first-seen position, restricted to the winner. -/
def argmaxEarliest (key : α → ℚ) : List α → Option α
  | [] => none
  | x :: xs =>
    match argmaxEarliest key xs with
    | none => some x
    | some b => if key x < key b then some b else some x

/-- Spec wording of `retrieve`: score every retained entry, pick the
highest-scoring entry with ties broken by insertion order, and return its
formatted content (bumping its access statistics) exactly when its score
exceeds 0.6; otherwise the empty result with the store unchanged. -/
def retrieveSpec (fmt : ℚ → String) (st : MemoryState) (query : String)
    (context : Option Ctx) (now : ℚ) : String × MemoryState :=
  if !st.enabled || st.memories.isEmpty then ("", st)
  else
    let scored := st.memories.enum.map fun p =>
      (p.1, p.2, relevanceSpec query context now st.retention_period p.2)
    match argmaxEarliest (fun t => t.2.2) scored with
    | none => ("", st)
    | some (i, m, s) =>
      if mkRat 3 5 < s then
        (formatMemory fmt m, { st with memories := st.memories.set i (m.access now) })
      else ("", st)

/-- The claim wording of C5: 1 minus the mean absolute difference over all
context keys shared between the two contexts that hold numeric values, and
0.5 when the query context is missing or no such key is shared. -/
def contextRelevanceClaim (query_context : Option Ctx) (memory_context : Ctx) : ℚ :=
  match query_context with
  | none => mkRat 1 2
  | some q =>
    let shared := q.filterMap fun p =>
      match p.2, ctxFind p.1 memory_context with
      | CtxVal.num a, some (CtxVal.num b) => some (a, b)
      | _, _ => none
    if shared.isEmpty then mkRat 1 2
    else 1 - (shared.map fun p => |p.1 - p.2|).sum / (shared.length : ℚ)

/-- The pairs of feature values shared by the extracted query features and
the extracted memory features, in query-feature order. -/
def sharedFeaturePairs (q : Ctx) (m : Ctx) : List (ℚ × ℚ) :=
  (queryFeatures q).filterMap fun p =>
    (List.lookup p.1 (memoryFeatures m)).map fun v => (p.2, v)

/-- The amended claim for the context relevance: `max 0` of 1 minus the mean
absolute difference over the shared extracted features, and 0.5 when the
query context is missing or empty, the memory context is empty, or no
extracted feature is shared. -/
def contextRelevanceAmended (query_context : Option Ctx) (memory_context : Ctx) : ℚ :=
  match query_context with
  | none => mkRat 1 2
  | some q =>
    if q.isEmpty || memory_context.isEmpty then mkRat 1 2
    else
      let shared := sharedFeaturePairs q memory_context
      if shared.isEmpty then mkRat 1 2
      else max 0 (1 - (shared.map fun p => |p.1 - p.2|).sum / (shared.length : ℚ))

/-- The spec's resonance-collapse signal: `max 0 (1 − resonance/collapseThreshold)`
when the context supplies a resonance value, else 0. -/
def resSignal (cfg : ResilienceConfig) (context : Option Ctx) : ℚ :=
  match context with
  | some c =>
    match ctxNum "resonance_value" c with
    | some v => max 0 (1 - v / cfg.resonance_collapse_threshold)
    | none => 0
  | none => 0

/-- The spec's ethical-corruption signal:
`max 0 (1 − meanEthicalAlignment/corruptionThreshold)` when the context
supplies ethical-alignment values, else 0. -/
def ethSignal (cfg : ResilienceConfig) (context : Option Ctx) : ℚ :=
  match context with
  | some c =>
    match ctxDict "ethical_alignment" c with
    | some kvs =>
      if kvs.isEmpty then 0
      else
        max 0 (1 - ((kvs.map fun p => p.2).sum / (kvs.length : ℚ)) /
          cfg.ethical_corruption_threshold)
    | none => 0
  | none => 0

/-! ### Concrete states used by scenarios, witnesses and counterexamples -/

/-- A resilience gate with the documented default thresholds 0.3 and 0.4. -/
def defaultResilience : ResilienceConfig :=
  { enabled := true, resonance_collapse_threshold := mkRat 3 10
    ethical_corruption_threshold := mkRat 2 5 }

/-- An enabled enhanced governor on the balanced profile at the initial
justice ratio 1. -/
def govBalanced : EnergyState :=
  { enabled := true, current_profile := "balanced", total_energy_used := 0
    energy_justice_ratio := 1, energy_log := [] }

/-- An idle machine: both psutil readings at zero. -/
def envIdle : Env := { cpu_percent := 0, memory_percent := 0 }

/-- A base governor whose justice ratio 0.3 is below its sleep threshold 0.4
and whose sleeping flag is set: a governor that reports it should sleep. -/
def sleepyEnergy : EnergyBase :=
  { enabled := true, ethical_threshold := mkRat 7 10, sleep_threshold := mkRat 2 5
    shutdown_threshold := mkRat 1 5, check_interval := 60, last_check_time := 0
    total_energy_used := 0, total_truth_generated := 0
    energy_justice_ratio := mkRat 3 10, is_sleeping := true }

/-- An enabled, empty memory store with the default retention window. -/
def memory0 : MemoryState :=
  { enabled := true, retention_period := 30, context_weight := mkRat 4 5
    decay_rate := mkRat 1 20, memories := [] }

/-- Scorers whose intent signal carries resonance 0.8. -/
def scorers08 : Scorers :=
  { analyze := fun _ =>
      { coherence := mkRat 1 2, freedom_degree := mkRat 1 2
        resonance_value := mkRat 4 5, action_suitability := mkRat 1 2
        ethical_alignment := [] }
    evaluate := fun _ _ => mkRat 1 2 }

/-- Scorers whose intent signal carries resonance 0.5. -/
def scorers05 : Scorers :=
  { analyze := fun _ =>
      { coherence := mkRat 1 2, freedom_degree := mkRat 1 2
        resonance_value := mkRat 1 2, action_suitability := mkRat 1 2
        ethical_alignment := [] }
    evaluate := fun _ _ => mkRat 1 2 }

/-- The CLI module set: continuous-score resilience gate, enabled
boolean-API energy governor, enabled memory store. -/
def cliMods : CliModules :=
  { resilience := defaultResilience, energy := sleepyEnergy, memory := memory0
    interface_enabled := true, scorers := scorers08 }

/-- The retention-exempt entry of the 101-entry eviction scenario: fresh
timestamp, resonance 0.9, inserted first. -/
def mem09 : MemoryEntry :=
  { semantic_content := "high resonance memory", context := [], timestamp := 0
    resonance := mkRat 9 10, access_count := 0, last_accessed := 0 }

/-- One of the 100 filler entries of the eviction scenario: fresh timestamp,
resonance 0.1. -/
def lowMem : MemoryEntry :=
  { semantic_content := "low resonance memory", context := [], timestamp := 0
    resonance := mkRat 1 10, access_count := 0, last_accessed := 0 }

/-- The eviction scenario of the spec: 101 fresh entries, the 0.9-resonance
entry first, then 100 entries of resonance 0.1. -/
def scenario101 : List MemoryEntry := mem09 :: List.replicate 100 lowMem

/-- A context carrying a low resonance value 0.05. -/
def ctxLowRes : Ctx := [("resonance_value", CtxVal.num (mkRat 1 20))]

/-- A one-entry memory store. -/
def memory1 : MemoryState :=
  { enabled := true, retention_period := 30, context_weight := mkRat 4 5
    decay_rate := mkRat 1 20, memories := [mem09] }

/-- A query context holding only the shared numeric key `foo`. -/
def qcFoo : Ctx := [("foo", CtxVal.num (mkRat 1 2))]

/-- A memory context holding only the shared numeric key `foo`. -/
def mcFoo : Ctx := [("foo", CtxVal.num (mkRat 9 10))]

/-! ### Supporting lemmas -/

theorem mkRat_as_div (n : ℤ) (d : ℕ) : mkRat n d = (n : ℚ) / (d : ℚ) := by
  rw [Rat.mkRat_eq_divInt, Rat.divInt_eq_div]
  norm_num

theorem estimate_floor (env : Env) (profile : String) (processing_time : ℚ) :
    mkRat 1 10 ≤ estimate_energy_consumption env profile processing_time :=
  le_max_left _ _

theorem estimate_pos (env : Env) (profile : String) (processing_time : ℚ) :
    0 < estimate_energy_consumption env profile processing_time :=
  lt_of_lt_of_le (by decide) (estimate_floor env profile processing_time)

theorem track_ratio_eq (st : EnergyState) (env : Env)
    (delta truth_value processing_time now : ℚ) (h : st.enabled = true) :
    (track_energy_use st env delta truth_value processing_time now).1.energy_justice_ratio =
      mkRat 7 10 * st.energy_justice_ratio + mkRat 3 10 *
        ((truth_value * delta) /
          estimate_energy_consumption env st.current_profile processing_time) := by
  simp [track_energy_use, h, estimate_pos env st.current_profile processing_time]

/-! ### Claims -/

/-- C2: for every enabled energy governor, one call to `track_energy_use`
with truth value `t` and processing time `p` computes the instantaneous
justice `j = (t * delta) / energyUsed` (1 when the estimated energy is
zero) and sets the new justice ratio to exactly `0.7*r0 + 0.3*j`. -/
theorem track_energy_use_smoothing (st : EnergyState) (env : Env)
    (delta truth_value processing_time now : ℚ) (h : st.enabled = true) :
    (track_energy_use st env delta truth_value processing_time now).1.energy_justice_ratio =
      mkRat 7 10 * st.energy_justice_ratio + mkRat 3 10 *
        (if estimate_energy_consumption env st.current_profile processing_time = 0 then 1
         else (truth_value * delta) /
           estimate_energy_consumption env st.current_profile processing_time) := by
  rw [track_ratio_eq st env delta truth_value processing_time now h,
    if_neg (ne_of_gt (estimate_pos env st.current_profile processing_time))]

/-- Witness for C2 at the balanced governor, an idle machine, delta 5,
truth 1 and processing time 1. -/
theorem track_energy_use_smoothing_witness :
    (track_energy_use govBalanced envIdle 5 1 1 0).1.energy_justice_ratio =
      mkRat 7 10 * govBalanced.energy_justice_ratio + mkRat 3 10 *
        (if estimate_energy_consumption envIdle govBalanced.current_profile 1 = 0 then 1
         else (1 * 5) / estimate_energy_consumption envIdle govBalanced.current_profile 1) :=
  track_energy_use_smoothing govBalanced envIdle 5 1 1 0 rfl

/-- C3: for every enabled enhanced governor, `should_shutdown` is true
exactly when the justice ratio is below the fixed critical threshold 0.2,
and its verdict does not depend on the selected profile. -/
theorem should_shutdown_iff (st : EnergyState) (h : st.enabled = true) :
    (should_shutdown st = true ↔ st.energy_justice_ratio < mkRat 1 5) ∧
    ∀ p : String, should_shutdown { st with current_profile := p } = should_shutdown st := by
  constructor
  · simp [should_shutdown, h]
  · intro p
    simp [should_shutdown]

/-- Witness for C3 at a governor with justice ratio 0.1 and the eco
profile. -/
theorem should_shutdown_iff_witness :
    (should_shutdown { govBalanced with energy_justice_ratio := mkRat 1 10 } = true ↔
      ({ govBalanced with energy_justice_ratio := mkRat 1 10 } : EnergyState).energy_justice_ratio
        < mkRat 1 5) ∧
    should_shutdown
        { govBalanced with energy_justice_ratio := mkRat 1 10, current_profile := "eco" } =
      should_shutdown { govBalanced with energy_justice_ratio := mkRat 1 10 } :=
  ⟨(should_shutdown_iff { govBalanced with energy_justice_ratio := mkRat 1 10 } rfl).1,
   (should_shutdown_iff { govBalanced with energy_justice_ratio := mkRat 1 10 } rfl).2 "eco"⟩

/-- C10: for every metric environment and profile, and every non-negative
processing time, the estimated energy consumption is at least 0.1; hence in
every enabled `track_energy_use` call the justice division is well defined
and the `energy_used = 0` fallback branch is unreachable — the new ratio is
always produced by the division formula. -/
theorem estimate_energy_floor (env : Env) (profile : String) (processing_time : ℚ)
    (hp : 0 ≤ processing_time) :
    mkRat 1 10 ≤ estimate_energy_consumption env profile processing_time ∧
    ∀ (st : EnergyState) (delta truth_value now : ℚ),
      st.enabled = true → st.current_profile = profile →
      (track_energy_use st env delta truth_value processing_time now).1.energy_justice_ratio =
        mkRat 7 10 * st.energy_justice_ratio + mkRat 3 10 *
          ((truth_value * delta) / estimate_energy_consumption env profile processing_time) := by
  refine ⟨estimate_floor env profile processing_time, ?_⟩
  intro st delta truth_value now h hprof
  rw [track_ratio_eq st env delta truth_value processing_time now h, hprof]

/-- Witness for C10 at the idle environment, processing time 1 and the
balanced governor. -/
theorem estimate_energy_floor_witness :
    mkRat 1 10 ≤ estimate_energy_consumption envIdle "balanced" 1 ∧
    (track_energy_use govBalanced envIdle 5 1 1 0).1.energy_justice_ratio =
      mkRat 7 10 * govBalanced.energy_justice_ratio + mkRat 3 10 *
        ((1 * 5) / estimate_energy_consumption envIdle "balanced" 1) :=
  ⟨(estimate_energy_floor envIdle "balanced" 1 (by norm_num)).1,
   (estimate_energy_floor envIdle "balanced" 1 (by norm_num)).2 govBalanced 5 1 0 rfl rfl⟩

/-- C9 (code bug): the constructor treats a missing or unparsable memory
document as the empty store, but a parsable document holding a corrupted
record — here the record `{}` — raises KeyError from
`MemoryEntry.from_dict`, which `_load_memories` does not catch. -/
theorem load_memories_keyerror :
    load_memories (DiskDoc.parsed (Json.arr [Json.obj []])) =
      Except.error "KeyError: semantic_content" ∧
    load_memories DiskDoc.absent = Except.ok [] ∧
    load_memories DiskDoc.unparsable = Except.ok [] :=
  ⟨rfl, rfl, rfl⟩

/-- C7: the CLI orchestrator computes the resilience gate's exit-readiness
score on the raw request text first, and a request terminates in the
voluntary-silence refusal — with no other pipeline step performed and the
memory store untouched — exactly when that score exceeds 0.7. -/
theorem cli_refuses_ethics_iff (fmt : ℚ → String) (mods : CliModules) (now : ℚ)
    (text : String) :
    cli_process_input fmt mods now text = (Outcome.refusedEthics, mods.memory) ↔
      mkRat 7 10 < exit_readiness mods.resilience text none := by
  by_cases h : mkRat 7 10 < exit_readiness mods.resilience text none
  · constructor
    · intro _
      exact h
    · intro _
      simp [cli_process_input, h]
  · constructor
    · intro hc
      exfalso
      by_cases he : mods.energy.enabled = true
      · simp [cli_process_input, h, he] at hc
      · by_cases hr :
          (mods.scorers.analyze
            (if mods.interface_enabled = true then normalize_whitespace text
             else text)).resonance_value < mkRat 3 5
        · simp [cli_process_input, h, he, hr] at hc
        · simp [cli_process_input, h, he, hr] at hc
    · intro hr
      exact absurd hr h

/-- C8 (code bug): with a governor that reports it should sleep, the CLI
orchestrator crashes unpacking the boolean `should_shutdown()` as a tuple
(and has no wake path at all), and the HTTP orchestrator crashes calling
the nonexistent `should_exit` before its sleep gate, so no request ever
reaches the wake-or-refuse logic; that logic itself (app.py lines 109-115,
in isolation) does refuse at resonance 0.5 and wake at resonance 0.8
against the wake threshold 0.7, as the claim describes. -/
theorem sleep_wake_gate_dead :
    (base_should_sleep sleepyEnergy 0).1 = true ∧
    (cli_process_input (fun _ => "") cliMods 0 "I seek resonance and meaning").1 =
      Outcome.crashed "TypeError: cannot unpack non-iterable bool object" ∧
    app_process_input defaultResilience sleepyEnergy memory0 scorers08
      "I seek resonance and meaning" =
      Outcome.crashed "AttributeError: EdenResilience object has no attribute should_exit" ∧
    app_sleep_gate scorers05 sleepyEnergy (mkRat 7 10) "I seek resonance and meaning" = none ∧
    app_sleep_gate scorers08 sleepyEnergy (mkRat 7 10) "I seek resonance and meaning" =
      some (base_wake sleepyEnergy) := by
  have hp : contains_problematic_patterns "I seek resonance and meaning" = false := by decide
  refine ⟨?_, ?_, rfl, ?_, ?_⟩
  · simp [base_should_sleep, sleepyEnergy]
  · simp [cli_process_input, cliMods, defaultResilience, sleepyEnergy, exit_readiness, hp,
      mkRat_as_div]
    try norm_num
  · simp [app_sleep_gate, scorers05, sleepyEnergy, mkRat_as_div]
    try norm_num
  · simp [app_sleep_gate, scorers08, sleepyEnergy, base_wake, mkRat_as_div]
    try norm_num

theorem filterMap_lookup_eq (mf : List (String × ℚ)) (qf : List (String × ℚ)) :
    (qf.filterMap fun p => (List.lookup p.1 mf).map fun v => (p.2, v)) =
      (qf.filter fun p => (List.lookup p.1 mf).isSome).map
        fun p => (p.2, (List.lookup p.1 mf).getD 0) := by
  induction qf with
  | nil => rfl
  | cons p tl ih =>
    cases h : List.lookup p.1 mf with
    | none => simp [List.filterMap_cons, List.filter_cons, h, ih]
    | some v => simp [List.filterMap_cons, List.filter_cons, h, ih]

/-- C5 counterexample: on contexts sharing only the numeric key `foo` (query
value 0.5, memory value 0.9), the code returns the neutral 0.5 — it extracts
no feature from the key `foo` — while the claimed formula `1 − mean |Δ|`
over shared numeric keys yields 0.6. -/
theorem context_relevance_ignores_shared_keys :
    calculate_context_relevance (some qcFoo) mcFoo = mkRat 1 2 ∧
    contextRelevanceClaim (some qcFoo) mcFoo = mkRat 3 5 ∧
    contextRelevanceClaim (some qcFoo) mcFoo ≠ calculate_context_relevance (some qcFoo) mcFoo := by
  have h1 : calculate_context_relevance (some qcFoo) mcFoo = mkRat 1 2 := by
    simp [calculate_context_relevance, qcFoo, mcFoo, queryFeatures, memoryFeatures,
      ctxNum, ctxDict, ctxFind, List.lookup]
  have h2 : contextRelevanceClaim (some qcFoo) mcFoo = mkRat 3 5 := by
    simp [contextRelevanceClaim, qcFoo, mcFoo, ctxFind, List.lookup]
    rw [show (mkRat 1 2 - mkRat 9 10 : ℚ) = -(mkRat 2 5) by norm_num [mkRat_as_div],
      abs_neg, abs_of_nonneg (by norm_num [mkRat_as_div] : (0:ℚ) ≤ mkRat 2 5)]
    norm_num [mkRat_as_div]
  refine ⟨h1, h2, ?_⟩
  rw [h1, h2]
  norm_num [mkRat_as_div]

/-- C5 amended: the context relevance equals `max 0 (1 − mean |Δ|)` over the
shared extracted features (the query's `resonance_value` and the memory's
`resonance` under the feature name `resonance`, plus `ethical_<dim>` for the
dimensions of each `ethical_alignment` map), and 0.5 when the query context
is missing or empty, the memory context is empty, or no extracted feature
is shared. -/
theorem context_relevance_amended_eq (qc : Option Ctx) (mc : Ctx) :
    calculate_context_relevance qc mc = contextRelevanceAmended qc mc := by
  cases qc with
  | none => rfl
  | some q =>
    unfold calculate_context_relevance contextRelevanceAmended sharedFeaturePairs
    by_cases h1 : (q.isEmpty || mc.isEmpty) = true
    · simp [h1]
    · simp only [h1, Bool.false_eq_true, if_false]
      rw [filterMap_lookup_eq]
      by_cases hc :
        ((queryFeatures q).filter fun p => (List.lookup p.1 (memoryFeatures mc)).isSome) = []
      · simp [hc]
      · rw [if_neg (by simp [List.isEmpty_iff, hc]), if_neg (by simp [List.isEmpty_iff, hc])]
        simp only [List.map_map, List.length_map]
        rfl

/-- C6: for every enabled gate with thresholds at least 0.01 (the defaults
are 0.3 and 0.4) and in-range context signals, `exit_readiness` returns a
value in [0,1] equal to the maximum of the pattern signal (0.7 or 0), the
resonance-collapse signal and the ethical-corruption signal; and it returns
exactly 0.7 on the pattern-only text
"How can I hack into a system and destroy data?" with no context. -/
theorem exit_readiness_max_of_signals :
    (∀ (cfg : ResilienceConfig) (text : String) (context : Option Ctx),
      cfg.enabled = true →
      mkRat 1 100 ≤ cfg.resonance_collapse_threshold →
      mkRat 1 100 ≤ cfg.ethical_corruption_threshold →
      (∀ c v, context = some c → ctxNum "resonance_value" c = some v → 0 ≤ v) →
      (∀ c kvs, context = some c → ctxDict "ethical_alignment" c = some kvs →
        ∀ p ∈ kvs, (0:ℚ) ≤ p.2) →
      (exit_readiness cfg text context =
          max (if contains_problematic_patterns text then mkRat 7 10 else 0)
            (max (resSignal cfg context) (ethSignal cfg context)) ∧
        0 ≤ exit_readiness cfg text context ∧ exit_readiness cfg text context ≤ 1)) ∧
    exit_readiness defaultResilience "How can I hack into a system and destroy data?" none =
      mkRat 7 10 := by
  have h710 : (0:ℚ) ≤ mkRat 7 10 := by norm_num [mkRat_as_div]
  have h711 : (mkRat 7 10 : ℚ) ≤ 1 := by norm_num [mkRat_as_div]
  constructor
  · intro cfg text context h hc he hv hk
    have hrpos : (0:ℚ) < cfg.resonance_collapse_threshold :=
      lt_of_lt_of_le (by norm_num [mkRat_as_div]) hc
    have hepos : (0:ℚ) < cfg.ethical_corruption_threshold :=
      lt_of_lt_of_le (by norm_num [mkRat_as_div]) he
    have hmaxr : max (mkRat 1 100) cfg.resonance_collapse_threshold =
        cfg.resonance_collapse_threshold := max_eq_right hc
    have hmaxe : max (mkRat 1 100) cfg.ethical_corruption_threshold =
        cfg.ethical_corruption_threshold := max_eq_right he
    set A : ℚ := if contains_problematic_patterns text then mkRat 7 10 else 0 with hA
    have hA0 : 0 ≤ A := by rw [hA]; split <;> simp [h710]
    have hA1 : A ≤ 1 := by rw [hA]; split <;> simp [h711]
    have hstep1 : (if contains_problematic_patterns text then max 0 (mkRat 7 10) else (0:ℚ)) = A := by
      rw [hA]
      split <;> simp [max_eq_right h710]
    have hB0 : 0 ≤ resSignal cfg context := by
      unfold resSignal
      rcases context with _ | c
      · norm_num
      · cases hn : ctxNum "resonance_value" c with
        | none =>
          simp only [hn]
          exact le_refl 0
        | some v =>
          simp only [hn]
          exact le_max_left _ _
    have hB1 : resSignal cfg context ≤ 1 := by
      unfold resSignal
      rcases context with _ | c
      · norm_num
      · cases hn : ctxNum "resonance_value" c with
        | none => simp only [hn]; norm_num
        | some v =>
          have hv0 : 0 ≤ v := hv c v rfl hn
          have hdiv : 0 ≤ v / cfg.resonance_collapse_threshold := div_nonneg hv0 hrpos.le
          simp only [hn]
          exact max_le (by norm_num) (by linarith)
    have hC0 : 0 ≤ ethSignal cfg context := by
      unfold ethSignal
      rcases context with _ | c
      · norm_num
      · cases hd : ctxDict "ethical_alignment" c with
        | none =>
          simp only [hd]
          exact le_refl 0
        | some kvs =>
          simp only [hd]
          split
          · exact le_refl 0
          · exact le_max_left _ _
    have hC1 : ethSignal cfg context ≤ 1 := by
      unfold ethSignal
      rcases context with _ | c
      · norm_num
      · cases hd : ctxDict "ethical_alignment" c with
        | none => simp only [hd]; norm_num
        | some kvs =>
          by_cases hke : kvs.isEmpty
          · simp [hd, hke]
          · have hsum : 0 ≤ (kvs.map fun p => p.2).sum := by
              refine List.sum_nonneg ?_
              intro x hx
              obtain ⟨p, hp, rfl⟩ := List.mem_map.mp hx
              exact hk c kvs rfl hd p hp
            have hlen : (0:ℚ) ≤ (kvs.length : ℚ) := by positivity
            have havg : 0 ≤ (kvs.map fun p => p.2).sum / (kvs.length : ℚ) :=
              div_nonneg hsum hlen
            have hdiv : 0 ≤ ((kvs.map fun p => p.2).sum / (kvs.length : ℚ)) /
                cfg.ethical_corruption_threshold := div_nonneg havg hepos.le
            simp only [hd, hke, if_false]
            exact max_le (by norm_num) (by linarith)
    have hE : exit_readiness cfg text context =
        max A (max (resSignal cfg context) (ethSignal cfg context)) := by
      unfold exit_readiness resSignal ethSignal
      rcases context with _ | c
      · simp only [h, Bool.not_true, Bool.false_eq_true, if_false, hstep1]
        rw [max_self, max_eq_left hA0, min_eq_right hA1]
      · cases hn : ctxNum "resonance_value" c with
        | none =>
          cases hd : ctxDict "ethical_alignment" c with
          | none =>
            simp only [h, Bool.not_true, Bool.false_eq_true, if_false, hn, hd, hstep1]
            rw [max_self, max_eq_left hA0, min_eq_right hA1]
          | some kvs =>
            by_cases hke : kvs.isEmpty
            · simp only [h, Bool.not_true, Bool.false_eq_true, if_false, hn, hd, hke, if_true,
                hstep1]
              rw [max_self, max_eq_left hA0, min_eq_right hA1]
            · have hsum : 0 ≤ (kvs.map fun p => p.2).sum := by
                refine List.sum_nonneg ?_
                intro x hx
                obtain ⟨p, hp, rfl⟩ := List.mem_map.mp hx
                exact hk c kvs rfl hd p hp
              have havg : 0 ≤ (kvs.map fun p => p.2).sum / (kvs.length : ℚ) :=
                div_nonneg hsum (by positivity)
              have hdiv : 0 ≤ ((kvs.map fun p => p.2).sum / (kvs.length : ℚ)) /
                  cfg.ethical_corruption_threshold := div_nonneg havg hepos.le
              have hCc1 : max 0 (1 - ((kvs.map fun p => p.2).sum / (kvs.length : ℚ)) /
                  cfg.ethical_corruption_threshold) ≤ 1 :=
                max_le (by norm_num) (by linarith)
              have hCc0 : (0:ℚ) ≤ max 0 (1 - ((kvs.map fun p => p.2).sum / (kvs.length : ℚ)) /
                  cfg.ethical_corruption_threshold) := le_max_left _ _
              simp only [h, Bool.not_true, Bool.false_eq_true, if_false, hn, hd, hke, hstep1,
                hmaxe]
              rw [min_eq_right hCc1, min_eq_right (max_le hA1 hCc1),
                max_eq_right hCc0]
        | some v =>
          have hv0 : 0 ≤ v := hv c v rfl hn
          have hdivb : 0 ≤ v / cfg.resonance_collapse_threshold := div_nonneg hv0 hrpos.le
          have hBb1 : max 0 (1 - v / cfg.resonance_collapse_threshold) ≤ 1 :=
            max_le (by norm_num) (by linarith)
          have hBb0 : (0:ℚ) ≤ max 0 (1 - v / cfg.resonance_collapse_threshold) :=
            le_max_left _ _
          cases hd : ctxDict "ethical_alignment" c with
          | none =>
            simp only [h, Bool.not_true, Bool.false_eq_true, if_false, hn, hd, hstep1, hmaxr]
            rw [min_eq_right hBb1, min_eq_right (max_le hA1 hBb1), max_eq_left hBb0]
          | some kvs =>
            by_cases hke : kvs.isEmpty
            · simp only [h, Bool.not_true, Bool.false_eq_true, if_false, hn, hd, hke, if_true,
                hstep1, hmaxr]
              rw [min_eq_right hBb1, min_eq_right (max_le hA1 hBb1), max_eq_left hBb0]
            · have hsum : 0 ≤ (kvs.map fun p => p.2).sum := by
                refine List.sum_nonneg ?_
                intro x hx
                obtain ⟨p, hp, rfl⟩ := List.mem_map.mp hx
                exact hk c kvs rfl hd p hp
              have havg : 0 ≤ (kvs.map fun p => p.2).sum / (kvs.length : ℚ) :=
                div_nonneg hsum (by positivity)
              have hdiv : 0 ≤ ((kvs.map fun p => p.2).sum / (kvs.length : ℚ)) /
                  cfg.ethical_corruption_threshold := div_nonneg havg hepos.le
              have hCc1 : max 0 (1 - ((kvs.map fun p => p.2).sum / (kvs.length : ℚ)) /
                  cfg.ethical_corruption_threshold) ≤ 1 :=
                max_le (by norm_num) (by linarith)
              simp only [h, Bool.not_true, Bool.false_eq_true, if_false, hn, hd, hke, hstep1,
                hmaxr, hmaxe]
              rw [min_eq_right hBb1, min_eq_right hCc1,
                min_eq_right (max_le (max_le hA1 hBb1) hCc1), max_assoc]
    refine ⟨hE, ?_, ?_⟩
    · rw [hE]
      exact le_trans hA0 (le_max_left _ _)
    · rw [hE]
      exact max_le hA1 (max_le hB1 hC1)
  · have hpat :
        contains_problematic_patterns "How can I hack into a system and destroy data?" = true := by
      decide
    simp only [exit_readiness, defaultResilience, hpat, Bool.not_true, if_false, if_true]
    rw [max_eq_right h710, min_eq_right h711]
    simp

/-- Witness for C6 at the default gate, the pattern text and a context
carrying resonance 0.05. -/
theorem exit_readiness_max_of_signals_witness :
    exit_readiness defaultResilience "How can I hack into a system and destroy data?"
        (some ctxLowRes) =
      max (if contains_problematic_patterns "How can I hack into a system and destroy data?"
          then mkRat 7 10 else 0)
        (max (resSignal defaultResilience (some ctxLowRes))
          (ethSignal defaultResilience (some ctxLowRes))) ∧
    0 ≤ exit_readiness defaultResilience "How can I hack into a system and destroy data?"
        (some ctxLowRes) ∧
    exit_readiness defaultResilience "How can I hack into a system and destroy data?"
        (some ctxLowRes) ≤ 1 :=
  exit_readiness_max_of_signals.1 defaultResilience
    "How can I hack into a system and destroy data?" (some ctxLowRes) rfl
    (by norm_num [defaultResilience, mkRat_as_div])
    (by norm_num [defaultResilience, mkRat_as_div])
    (by
      intro c v h1 h2
      cases h1
      simp [ctxNum, ctxFind, ctxLowRes, List.lookup] at h2
      rw [← h2]
      norm_num [mkRat_as_div])
    (by
      intro c kvs h1 h2
      cases h1
      simp [ctxDict, ctxFind, ctxLowRes, List.lookup] at h2)

/-! ### Eviction lemmas -/

theorem mem_insertDesc {key : α → ℚ} {x a : α} :
    ∀ {l : List α}, a ∈ insertDesc key x l ↔ a = x ∨ a ∈ l := by
  intro l
  induction l with
  | nil => simp [insertDesc]
  | cons y ys ih =>
    unfold insertDesc
    by_cases h : key y ≤ key x
    · simp [h]
    · simp only [h, if_false, List.mem_cons, ih]
      tauto

theorem mem_sortDescBy {key : α → ℚ} {a : α} :
    ∀ {l : List α}, a ∈ sortDescBy key l ↔ a ∈ l := by
  intro l
  induction l with
  | nil => simp [sortDescBy]
  | cons x xs ih => simp [sortDescBy, mem_insertDesc, ih]

theorem prune_memories_card (now ret : ℚ) (ms : List MemoryEntry) :
    (prune_memories now ret ms).length ≤ 100 := by
  dsimp only [prune_memories]
  split
  · simp [List.length_take]
  · exact le_of_not_lt (by assumption)

theorem prune_memories_retention (now ret : ℚ) (ms : List MemoryEntry)
    (m : MemoryEntry) (hm : m ∈ prune_memories now ret ms) :
    now - m.timestamp < ret * 24 * 60 * 60 ∨ mkRat 4 5 < m.resonance := by
  dsimp only [prune_memories] at hm
  split at hm
  · have h1 := List.take_subset 100 _ hm
    have h2 := mem_sortDescBy.mp h1
    have h3 := (List.mem_filter.mp h2).2
    simpa using h3
  · have h3 := (List.mem_filter.mp hm).2
    simpa using h3

theorem insertDesc_replicate (key : MemoryEntry → ℚ) (c : MemoryEntry) (n : ℕ) :
    insertDesc key c (List.replicate n c) = List.replicate (n + 1) c := by
  cases n with
  | zero => rfl
  | succ k =>
    rw [List.replicate_succ, insertDesc, if_pos (le_refl (key c)), ← List.replicate_succ,
      ← List.replicate_succ]

theorem sortDescBy_replicate (key : MemoryEntry → ℚ) (c : MemoryEntry) :
    ∀ n : ℕ, sortDescBy key (List.replicate n c) = List.replicate n c := by
  intro n
  induction n with
  | zero => rfl
  | succ k ih =>
    rw [List.replicate_succ, sortDescBy, ih, insertDesc_replicate]
    exact (List.replicate_succ c k).symm

/-- C1: after every store on an enabled memory store the pruned collection
holds at most 100 entries, and every retained entry is younger than the
retention window (in days) or has resonance above 0.8; moreover in the
101-entry scenario — one fresh 0.9-resonance entry inserted first, then 100
entries of resonance 0.1 — the 0.9-resonance entry survives pruning, which
leaves exactly 100 entries. -/
theorem store_prune_invariant :
    (∀ (st : MemoryState) (content : String) (context : Ctx) (resonance now : ℚ),
      st.enabled = true →
      ((store st content context resonance now).memories.length ≤ 100 ∧
        ∀ m ∈ (store st content context resonance now).memories,
          (now - m.timestamp) / 86400 < st.retention_period ∨ mkRat 4 5 < m.resonance)) ∧
    mem09 ∈ prune_memories 0 30 scenario101 ∧
    (prune_memories 0 30 scenario101).length = 100 := by
  have hprune : prune_memories 0 30 scenario101 = mem09 :: List.replicate 99 lowMem := by
    have hfilter :
        scenario101.filter (fun m =>
          decide ((0:ℚ) - m.timestamp < 30 * 24 * 60 * 60) ||
            decide (mkRat 4 5 < m.resonance)) = scenario101 := by
      refine List.filter_eq_self.mpr ?_
      intro m hm
      rcases List.mem_cons.mp hm with h | h
      · subst h
        simp only [mem09, Bool.or_eq_true, decide_eq_true_eq]
        left
        norm_num
      · rw [List.eq_of_mem_replicate h]
        simp only [lowMem, Bool.or_eq_true, decide_eq_true_eq]
        left
        norm_num
    dsimp only [prune_memories]
    rw [hfilter]
    rw [if_pos (by simp [scenario101])]
    have hsort : sortDescBy (fun m => m.resonance) scenario101 =
        mem09 :: List.replicate 100 lowMem := by
      show insertDesc (fun m => m.resonance) mem09
          (sortDescBy (fun m => m.resonance) (List.replicate 100 lowMem)) = _
      rw [sortDescBy_replicate]
      rw [List.replicate_succ, insertDesc,
        if_pos (by norm_num [mem09, lowMem, mkRat_as_div]), ← List.replicate_succ]
    rw [hsort]
    rw [show (100:ℕ) = 99 + 1 from rfl, List.take_succ_cons, List.take_replicate]
    norm_num
  constructor
  · intro st content context resonance now h
    have hstore : (store st content context resonance now).memories =
        prune_memories now st.retention_period (st.memories ++
          [{ semantic_content := content, context := context, timestamp := now
             resonance := resonance, access_count := 0, last_accessed := now }]) := by
      simp [store, h]
    rw [hstore]
    refine ⟨prune_memories_card _ _ _, ?_⟩
    intro m hm
    rcases prune_memories_retention _ _ _ m hm with hage | hres
    · left
      rw [div_lt_iff (by norm_num : (0:ℚ) < 86400)]
      calc now - m.timestamp < st.retention_period * 24 * 60 * 60 := hage
        _ = st.retention_period * 86400 := by ring
    · right
      exact hres
  · rw [hprune]
    exact ⟨List.mem_cons_self _ _, by simp⟩

/-- Witness for C1: one store on the enabled empty store with the default
retention window. -/
theorem store_prune_invariant_witness :
    (store memory0 "hello" [] (mkRat 1 2) 0).memories.length ≤ 100 :=
  (store_prune_invariant.1 memory0 "hello" [] (mkRat 1 2) 0 rfl).1

/-! ### Retrieval lemmas -/

theorem contains_iff_mem [BEq α] [LawfulBEq α] {l : List α} {a : α} :
    l.contains a = true ↔ a ∈ l := List.elem_iff

theorem sortDescBy_head_argmax (key : α → ℚ) :
    ∀ l : List α, (sortDescBy key l).head? = argmaxEarliest key l := by
  intro l
  induction l with
  | nil => rfl
  | cons x xs ih =>
    show (insertDesc key x (sortDescBy key xs)).head? = _
    rw [argmaxEarliest, ← ih]
    cases hs : sortDescBy key xs with
    | nil => simp [insertDesc]
    | cons y ys =>
      by_cases h : key y ≤ key x
      · simp only [insertDesc, h, if_true, List.head?_cons]
        rw [if_neg (not_lt.mpr h)]
      · simp only [insertDesc, h, if_false, List.head?_cons]
        rw [if_pos (not_le.mp h)]

theorem semantic_relevance_spec_eq (q c : String) :
    calculate_semantic_relevance q c = semanticRelevanceSpec q c := by
  dsimp only [calculate_semantic_relevance, semanticRelevanceSpec]
  by_cases hq : tokensOf q = []
  · simp [hq]
  · by_cases hcn : tokensOf c = []
    · simp [hq, hcn]
    · have hqd : (tokensOf q).dedup ≠ [] := by simp [List.dedup_eq_nil, hq]
      have hcd : (tokensOf c).dedup ≠ [] := by simp [List.dedup_eq_nil, hcn]
      have hqf : (tokensOf q).toFinset ≠ ∅ := by
        simp [List.toFinset_eq_empty_iff, hq]
      have hcf : (tokensOf c).toFinset ≠ ∅ := by
        simp [List.toFinset_eq_empty_iff, hcn]
      have hinter :
          ((tokensOf q).dedup.filter fun w => (tokensOf c).dedup.contains w).length =
            ((tokensOf q).toFinset ∩ (tokensOf c).toFinset).card := by
        have hnd : ((tokensOf q).dedup.filter fun w => (tokensOf c).dedup.contains w).Nodup :=
          (tokensOf q).nodup_dedup.filter _
        have hfs : ((tokensOf q).dedup.filter fun w =>
            (tokensOf c).dedup.contains w).toFinset =
              (tokensOf q).toFinset ∩ (tokensOf c).toFinset := by
          ext a
          simp [List.mem_filter, contains_iff_mem]
        rw [← hfs, List.card_toFinset, hnd.dedup]
      have hunion :
          ((tokensOf q).dedup ++
            (tokensOf c).dedup.filter fun w => !(tokensOf q).dedup.contains w).length =
            ((tokensOf q).toFinset ∪ (tokensOf c).toFinset).card := by
        have hnd : ((tokensOf q).dedup ++
            (tokensOf c).dedup.filter fun w => !(tokensOf q).dedup.contains w).Nodup := by
          refine List.Nodup.append (tokensOf q).nodup_dedup
            ((tokensOf c).nodup_dedup.filter _) ?_
          intro a ha hb
          have h2 := (List.mem_filter.mp hb).2
          rw [Bool.not_eq_true'] at h2
          have h3 : a ∈ (tokensOf q).dedup := ha
          rw [← contains_iff_mem] at h3
          rw [h2] at h3
          exact Bool.false_ne_true h3
        have hfs : ((tokensOf q).dedup ++
            (tokensOf c).dedup.filter fun w => !(tokensOf q).dedup.contains w).toFinset =
              (tokensOf q).toFinset ∪ (tokensOf c).toFinset := by
          ext a
          by_cases hmem : a ∈ (tokensOf q).dedup
          · have := contains_iff_mem.mpr hmem
            simp only [List.toFinset_append, Finset.mem_union, List.mem_toFinset,
              List.mem_dedup] at hmem ⊢
            simp [hmem]
          · have hcont : (tokensOf q).dedup.contains a = false := by
              rw [← Bool.not_eq_true, contains_iff_mem]
              exact hmem
            simp only [List.toFinset_append, Finset.mem_union, List.mem_toFinset,
              List.mem_filter, List.mem_dedup, hcont] at hmem ⊢
            simp [hmem]
        rw [← hfs, List.card_toFinset, hnd.dedup]
      have hpos : 0 < ((tokensOf q).dedup ++
          (tokensOf c).dedup.filter fun w => !(tokensOf q).dedup.contains w).length := by
        rw [List.length_append]
        have : 0 < (tokensOf q).dedup.length := List.length_pos.mpr hqd
        omega
      rw [if_neg (by simp [Bool.or_eq_true, List.isEmpty_iff, hqd, hcd]),
        if_neg (not_or.mpr ⟨hqf, hcf⟩), if_pos hpos, hinter, hunion]

theorem relevance_spec_eq (q : String) (ctx : Option Ctx) (now ret : ℚ)
    (m : MemoryEntry) :
    relevance_of q ctx now ret m = relevanceSpec q ctx now ret m := by
  dsimp only [relevance_of, relevanceSpec]
  rw [semantic_relevance_spec_eq]
  norm_num

/-- C4: on every enabled memory store, `retrieve` is exactly the specified
retrieval: it scores each retained entry by
`0.4·Jaccard + 0.3·contextRelevance + 0.2·max(0, 1 − ageDays/retentionDays)
+ 0.1·resonance + min(0.2, 0.02·accessCount)`, picks the highest-scoring
entry with ties broken by insertion order, and returns its formatted content
while bumping its access statistics exactly when its score exceeds 0.6,
otherwise the empty result with the store unchanged. -/
theorem retrieve_matches_spec (fmt : ℚ → String) (st : MemoryState) (q : String)
    (ctx : Option Ctx) (now : ℚ) (h : st.enabled = true) :
    retrieve fmt st q ctx now = retrieveSpec fmt st q ctx now := by
  dsimp only [retrieve, retrieveSpec]
  simp only [relevance_spec_eq]
  rw [← sortDescBy_head_argmax]
  cases hs : sortDescBy (fun t => t.2.2)
      (st.memories.enum.map fun p =>
        (p.1, p.2, relevanceSpec q ctx now st.retention_period p.2)) with
  | nil => rfl
  | cons a t =>
    obtain ⟨i, m, s⟩ := a
    rfl

/-- Witness for C4 at a one-entry store, an unrelated query and no
context. -/
theorem retrieve_matches_spec_witness :
    retrieve (fun _ => "") memory1 "hello" none 0 =
      retrieveSpec (fun _ => "") memory1 "hello" none 0 :=
  retrieve_matches_spec (fun _ => "") memory1 "hello" none 0 rfl

end Eden
